import Mathlib

/-!
# Verification of the SonarMunicipal discovery/extraction pipeline

A shallow embedding of the host-validation, certificate-search retry,
pagination and dedup-writer logic of the repository, together with
theorems settling the specification claims about them.

Strings manipulated character-wise (HTML bodies, markers, titles) are
modelled as `List Char` (`Str` below); URLs and keys stay as `String`.
Network responses are modelled as functions supplied to each operation,
so every outcome (success, error status, exception) is an input.
-/

/-- Character strings handled character by character. -/
abbrev Str := List Char

/-- Coerce a Lean string literal to `Str`. -/
def str (s : String) : Str := s.data

/-- Model of Python `str.lower` on the character repertoire used by the
SAPL markers and pages: ASCII letters and the Latin-1 accented capitals
(`À`..`Þ` except `×`) map down by 32; everything else is unchanged. -/
def pyLower (c : Char) : Char :=
  if 'A' ≤ c ∧ c ≤ 'Z' then Char.ofNat (c.toNat + 32)
  else if 0xC0 ≤ c.toNat ∧ c.toNat ≤ 0xDE ∧ c.toNat ≠ 0xD7 then Char.ofNat (c.toNat + 32)
  else c

/-- `s.lower()` on a whole string. -/
def towLower (s : Str) : Str := s.map pyLower

/-- Model of the Python substring test `needle in hay`. -/
def strContains : Str → Str → Bool
  | [], needle => needle.isEmpty
  | c :: t, needle => needle.isPrefixOf (c :: t) || strContains t needle

/-- Python whitespace characters stripped by `str.strip()`. -/
def isPySpace (c : Char) : Bool :=
  c = ' ' ∨ c = '\t' ∨ c = '\n' ∨ c = '\r' ∨ c = '\x0b' ∨ c = '\x0c'

/-- Model of Python `str.strip()`. -/
def pyStrip (s : Str) : Str :=
  ((s.dropWhile isPySpace).reverse.dropWhile isPySpace).reverse

/-- `SAPL_MARKERS` from `tools/sapl_finder/config.py`. -/
def SAPL_MARKERS : List Str :=
  [str "SAPL - Interlegis",
   str "Pesquisar Matéria Legislativa",
   str "Matérias Legislativas",
   str "> SAPL <"]

/-- `CHECK_PATHS` from `tools/sapl_finder/config.py`. -/
def CHECK_PATHS : List String :=
  ["/materia/pesquisar-materia", "/sapl/materia/pesquisar-materia"]

/-- Case-insensitive prefix test, as performed by `re` with `re.I`
on a literal pattern. -/
def ciPrefix (pat s : Str) : Bool :=
  (towLower pat).isPrefixOf (towLower s)

/-- One attempted match of the regular expression
`<title>([^<]+)</title>` (flags `re.I`) anchored at the start of `s`:
a case-insensitive `<title>`, then a nonempty maximal run of
characters other than `<` (the group), immediately followed by a
case-insensitive `</title>`. -/
def matchTitleAt (s : Str) : Option Str :=
  if ciPrefix (str "<title>") s then
    let rest := s.drop 7
    let run := rest.takeWhile (fun c => c ≠ '<')
    let tail := rest.dropWhile (fun c => c ≠ '<')
    if run ≠ [] ∧ ciPrefix (str "</title>") tail then some run else none
  else none

/-- `re.search(r"<title>([^<]+)</title>", html, flags=re.I)`: the group
of the leftmost match, scanning start positions left to right. -/
def findTitle : Str → Option Str
  | [] => none
  | c :: t =>
    match matchTitleAt (c :: t) with
    | some r => some r
    | none => findTitle t

/-- `looks_like_sapl` from `tools/sapl_finder/scraper.py`: first marker
whose lowercase form occurs in the lowercased body wins; otherwise the
`<title>` element is extracted and tested for the substring `sapl`
(lowercased). -/
def looks_like_sapl (html : Str) : Bool × Str :=
  let low := towLower html
  match SAPL_MARKERS.find? (fun m => strContains low (towLower m)) with
  | some m => (true, m)
  | none =>
    match findTitle html with
    | some t =>
      if strContains (towLower t) (str "sapl") then (true, str "title contains SAPL")
      else (false, [])
    | none => (false, [])

/-- `build_candidates` from `tools/sapl_finder/scraper.py`. -/
def build_candidates (host : String) : List String :=
  CHECK_PATHS.map (fun path => "https://" ++ host ++ path)

/-- A probe outcome as returned by `try_get`: HTTP status and (truncated)
body; exceptions and timeouts surface as `(0, "")`. The network is a
function from URL to outcome. -/
abbrev Probe := String → Int × Str

/-- Loop body of `validate_host`: walk the candidate URLs in order,
returning the first 200 response that `looks_like_sapl`, together with
the list of URLs actually requested. -/
def validateHostGo (resp : Probe) : List String → Option (String × Int × Str × Str) × List String
  | [] => (none, [])
  | url :: rest =>
    if (resp url).1 = 200 then
      if (looks_like_sapl (resp url).2).1 then
        (some (url, (resp url).1, (looks_like_sapl (resp url).2).2,
           pyStrip ((findTitle (resp url).2).getD [])), [url])
      else
        ((validateHostGo resp rest).1, url :: (validateHostGo resp rest).2)
    else
      ((validateHostGo resp rest).1, url :: (validateHostGo resp rest).2)

/-- `validate_host` from `tools/sapl_finder/scraper.py`: result only. -/
def validate_host (resp : Probe) (host : String) : Option (String × Int × Str × Str) :=
  (validateHostGo resp (build_candidates host)).1

/-- URLs actually requested by `validate_host`, in order. -/
def validateHostTried (resp : Probe) (host : String) : List String :=
  (validateHostGo resp (build_candidates host)).2

/-- The success condition of `looks_like_sapl`, spelled out as the spec
states it: some marker occurs in the body up to lowercasing, or the
extracted `<title>` contains `sapl` up to lowercasing. -/
def saplEvidence (html : Str) : Prop :=
  (∃ m ∈ SAPL_MARKERS, strContains (towLower html) (towLower m) = true) ∨
  (∃ t, findTitle html = some t ∧ strContains (towLower t) (str "sapl") = true)

theorem looks_like_sapl_fst_iff (html : Str) :
    (looks_like_sapl html).1 = true ↔ saplEvidence html := by
  unfold looks_like_sapl saplEvidence
  cases hfind : SAPL_MARKERS.find? (fun m => strContains (towLower html) (towLower m)) with
  | some m =>
    have hmem := List.mem_of_find?_eq_some hfind
    have hmatch : strContains (towLower html) (towLower m) = true := by
      simpa using List.find?_some hfind
    simp only [hfind]
    exact ⟨fun _ => Or.inl ⟨m, hmem, hmatch⟩, fun _ => trivial⟩
  | none =>
    have hnone : ∀ m ∈ SAPL_MARKERS, ¬ strContains (towLower html) (towLower m) = true := by
      intro m hm
      simpa using List.find?_eq_none.mp hfind m hm
    cases htitle : findTitle html with
    | some t =>
      by_cases hs : strContains (towLower t) (str "sapl") = true
      · simp only [hfind, htitle, hs, if_true]
        exact ⟨fun _ => Or.inr ⟨t, rfl, hs⟩, fun _ => trivial⟩
      · simp only [hfind, htitle, if_neg hs]
        constructor
        · intro h; simp at h
        · rintro (⟨m, hm, hc⟩ | ⟨t', ht', hc⟩)
          · exact absurd hc (hnone m hm)
          · cases ht'; exact absurd hc hs
    | none =>
      simp only [hfind, htitle]
      constructor
      · intro h; simp at h
      · rintro (⟨m, hm, hc⟩ | ⟨t', ht', hc⟩)
        · exact absurd hc (hnone m hm)
        · exact Option.noConfusion ht'

theorem isPrefixOf_append_self (n b : Str) : n.isPrefixOf (n ++ b) = true := by
  induction n with
  | nil => simp [List.isPrefixOf]
  | cons c t ih => simp [List.isPrefixOf, ih]

theorem strContains_of_isPrefixOf {h n : Str} (hp : n.isPrefixOf h = true) :
    strContains h n = true := by
  cases h with
  | nil =>
    cases n with
    | nil => rfl
    | cons c t => simp [List.isPrefixOf] at hp
  | cons c t => simp [strContains, hp]

theorem strContains_append_self (a n b : Str) : strContains (a ++ n ++ b) n = true := by
  induction a with
  | nil => exact strContains_of_isPrefixOf (isPrefixOf_append_self n b)
  | cons c a ih =>
    have h2 : (c :: a) ++ n ++ b = c :: (a ++ n ++ b) := by simp
    rw [h2, strContains, Bool.or_eq_true]
    exact Or.inr ih

theorem validateHostGo_spec (resp : Probe) (urls : List String) :
    ((validateHostGo resp urls).1.isSome ↔
      ∃ url ∈ urls, (resp url).1 = 200 ∧ saplEvidence (resp url).2) ∧
    (validateHostGo resp urls).2 <+: urls := by
  induction urls with
  | nil => simp [validateHostGo]
  | cons url rest ih =>
    obtain ⟨ih1, ih2⟩ := ih
    by_cases h200 : (resp url).1 = 200
    · by_cases hok : (looks_like_sapl (resp url).2).1 = true
      · constructor
        · simp only [validateHostGo, h200, hok, if_true]
          simp only [Option.isSome_some, true_iff]
          exact ⟨url, List.mem_cons_self url rest, h200,
            (looks_like_sapl_fst_iff _).mp hok⟩
        · simp only [validateHostGo, h200, hok, if_true]
          exact ⟨rest, by simp⟩
      · constructor
        · simp only [validateHostGo, h200, if_true, hok, if_false, Bool.false_eq_true]
          constructor
          · intro h
            obtain ⟨u, hu, hp⟩ := ih1.mp h
            exact ⟨u, List.mem_cons_of_mem _ hu, hp⟩
          · rintro ⟨u, hu, h2, hev⟩
            rcases List.mem_cons.mp hu with rfl | hu'
            · exact absurd ((looks_like_sapl_fst_iff _).mpr hev) (by simpa using hok)
            · exact ih1.mpr ⟨u, hu', h2, hev⟩
        · simp only [validateHostGo, h200, if_true, hok, if_false, Bool.false_eq_true]
          obtain ⟨t, ht⟩ := ih2
          exact ⟨t, by simp [ht]⟩
    · constructor
      · simp only [validateHostGo, h200, if_false]
        constructor
        · intro h
          obtain ⟨u, hu, hp⟩ := ih1.mp h
          exact ⟨u, List.mem_cons_of_mem _ hu, hp⟩
        · rintro ⟨u, hu, h2, hev⟩
          rcases List.mem_cons.mp hu with rfl | hu'
          · exact absurd h2 h200
          · exact ih1.mpr ⟨u, hu', h2, hev⟩
      · simp only [validateHostGo, h200, if_false]
        obtain ⟨t, ht⟩ := ih2
        exact ⟨t, by simp [ht]⟩

/-- C1: `validate_host` produces a `ValidatedHost` tuple if and only if at
least one URL of the fixed ordered probe list answers HTTP 200 with a body
carrying SAPL evidence (a marker, or a `<title>` containing `sapl`); probe
errors and timeouts surface as non-200 statuses and are skipped, each
candidate URL is requested at most once (the requested URLs form a prefix
of the probe list), and a host with no matching path yields `none` rather
than an error. -/
theorem C1_validate_host_iff (resp : Probe) (host : String) :
    ((validate_host resp host).isSome ↔
      ∃ url ∈ build_candidates host, (resp url).1 = 200 ∧ saplEvidence (resp url).2) ∧
    validateHostTried resp host <+: build_candidates host :=
  validateHostGo_spec resp (build_candidates host)

/-- C6 counterexample: a body spelling the marker
`Pesquisar Matéria Legislativa` without its diacritic is NOT matched:
`looks_like_sapl` lowercases but does not strip accents. -/
theorem C6_counterexample :
    looks_like_sapl (str "pesquisar materia legislativa") = (false, []) := by
  decide

/-- C6 (amended): marker matching in host validation is case-insensitive
but diacritic-sensitive: every body containing some marker up to letter
case (diacritics intact) is matched, while a body that drops the marker's
diacritics is not (see the counterexample). -/
theorem C6_case_insensitive (body pre mid suf m : Str) (hm : m ∈ SAPL_MARKERS)
    (hsplit : body = pre ++ mid ++ suf) (hcase : towLower mid = towLower m) :
    (looks_like_sapl body).1 = true := by
  apply (looks_like_sapl_fst_iff body).mpr
  refine Or.inl ⟨m, hm, ?_⟩
  have hlow : towLower body = towLower pre ++ towLower m ++ towLower suf := by
    simp only [hsplit, towLower, List.map_append]
    rw [show mid.map pyLower = m.map pyLower from hcase]
  rw [hlow]
  exact strContains_append_self _ _ _

/-- Witness for C6: an upper-cased, accented body matches. -/
theorem C6_case_insensitive_witness :
    (looks_like_sapl (str "xx PESQUISAR MATÉRIA LEGISLATIVA yy")).1 = true :=
  C6_case_insensitive _ (str "xx ") (str "PESQUISAR MATÉRIA LEGISLATIVA") (str " yy")
    (str "Pesquisar Matéria Legislativa") (by decide) (by decide) (by decide)

/-! ## Persistence/Dedup writers
(`sapl_scrapper/output.py` and `sapl_finder/output.py`) -/

/-- A bill record as handed to `PLWriter.emit`: the two key fields plus an
opaque `payload` standing for the remaining record fields (`numero`, `ano`,
`ementa`, ...). A missing or empty `sapl_base` is the empty string;
`materia_id = none` models Python `None`, `some s` any other value with
string form `s`. -/
structure PLRow where
  sapl_base : String
  materia_id : Option String
  payload : String
deriving DecidableEq

/-- State of a `PLWriter`: the seen-key set, the `_rows` list, the running
`_count`, the CSV data lines written after the header (one per accepted
row) and, when a JSONL stream was opened, its lines. -/
structure PLWriterState where
  seen : List String
  rows : List PLRow
  count : Nat
  csv : List PLRow
  jsonl : Option (List PLRow)
deriving DecidableEq

namespace PLWriter

/-- Fresh writer as built by `PLWriter.__init__` (CSV header written, no
data lines yet; `withJsonl` mirrors passing an `out_jsonl` path). -/
def init (withJsonl : Bool) : PLWriterState :=
  ⟨[], [], 0, [], if withJsonl then some [] else none⟩

/-- `PLWriter._key`: `None` when `sapl_base` is falsy or `materia_id` is
`None`, else `f"{base}|{mid}"`. -/
def key (row : PLRow) : Option String :=
  if row.sapl_base = "" then none
  else
    match row.materia_id with
    | none => none
    | some mid => some (row.sapl_base ++ "|" ++ mid)

/-- `PLWriter.emit`: drop keyless rows; drop already-seen keys; otherwise
record the key, append the row to `_rows`, bump `_count`, and append one
CSV line and (when open) one JSONL line. -/
def emit (s : PLWriterState) (row : PLRow) : PLWriterState :=
  match key row with
  | none => s
  | some k =>
    if k ∈ s.seen then s
    else
      { seen := k :: s.seen
        rows := s.rows ++ [row]
        count := s.count + 1
        csv := s.csv ++ [row]
        jsonl := s.jsonl.map (fun ls => ls ++ [row]) }

/-- `PLWriter.finalize_json`: dumps `_rows`, in insertion order, to a
separate aggregate file; the writer state (and hence the CSV/JSONL logs)
is untouched. -/
def finalize_json (s : PLWriterState) : PLWriterState × List PLRow :=
  (s, s.rows)

/-- Keys of the persisted rows. -/
def rowKeys (s : PLWriterState) : List String := s.rows.filterMap key

/-- Writer invariant: persisted rows have pairwise distinct keys, all
recorded in the seen-set. -/
def Inv (s : PLWriterState) : Prop :=
  (rowKeys s).Nodup ∧ ∀ k ∈ rowKeys s, k ∈ s.seen

theorem emit_Inv {s : PLWriterState} (row : PLRow) (h : Inv s) : Inv (emit s row) := by
  obtain ⟨hnd, hsub⟩ := h
  unfold emit
  cases hk : key row with
  | none => exact ⟨hnd, hsub⟩
  | some k =>
    by_cases hseen : k ∈ s.seen
    · simp only [hseen, if_true]
      exact ⟨hnd, hsub⟩
    · simp only [hseen, if_false]
      have hknew : k ∉ rowKeys s := fun hmem => hseen (hsub k hmem)
      constructor
      · unfold rowKeys at *
        simp only [List.filterMap_append, List.filterMap_cons, List.filterMap_nil, hk]
        simp [List.nodup_append, hnd, hknew]
      · intro k' hk'
        unfold rowKeys at hk'
        simp only [List.filterMap_append, List.filterMap_cons, List.filterMap_nil, hk] at hk'
        rcases List.mem_append.mp hk' with hold | hnew
        · exact List.mem_cons_of_mem _ (hsub k' hold)
        · simp at hnew
          simp [hnew]

end PLWriter

/-- A validated-host record as handed to `ProgressWriter.on_found`:
the fields of its sort key plus an opaque payload for the rest
(`ibge_id`, `source`, `http_status`, `marker`, `title`). -/
structure HostRow where
  municipio : String
  uf : String
  sapl_url : String
  payload : String
deriving DecidableEq

/-- State of a `ProgressWriter` (`sapl_finder/output.py`), mirroring
`PLWriterState`. -/
structure ProgressWriterState where
  seen : List String
  rows : List HostRow
  count : Nat
  csv : List HostRow
  jsonl : Option (List HostRow)
deriving DecidableEq

namespace ProgressWriter

/-- `ProgressWriter.on_found`: dedup on `sapl_url`, then append to rows,
count, CSV and JSONL exactly as `PLWriter.emit` does. -/
def on_found (s : ProgressWriterState) (row : HostRow) : ProgressWriterState :=
  if row.sapl_url = "" then s
  else if row.sapl_url ∈ s.seen then s
  else
    { seen := row.sapl_url :: s.seen
      rows := s.rows ++ [row]
      count := s.count + 1
      csv := s.csv ++ [row]
      jsonl := s.jsonl.map (fun ls => ls ++ [row]) }

/-- The Python sort key `(uf, municipio, sapl_url)`, compared the way
Python compares tuples of strings: lexicographically. -/
def sortKey (r : HostRow) : Lex (String × Lex (String × String)) :=
  toLex (r.uf, toLex (r.municipio, r.sapl_url))

/-- Row comparison used by `sorted(..., key=...)`. -/
def rowLe (a b : HostRow) : Prop := sortKey a ≤ sortKey b

instance : DecidableRel rowLe := fun a b => inferInstanceAs (Decidable (sortKey a ≤ sortKey b))

instance : IsTotal HostRow rowLe := ⟨fun a b => le_total (sortKey a) (sortKey b)⟩

instance : IsTrans HostRow rowLe := ⟨fun _ _ _ h1 h2 => le_trans h1 h2⟩

/-- `ProgressWriter.finalize_json`: writes `sorted(self._rows, key=...)`
to the aggregate file; state untouched. Python's stable `sorted` is
modelled by insertion sort on the same key. -/
def finalize_json (s : ProgressWriterState) : ProgressWriterState × List HostRow :=
  (s, List.insertionSort rowLe s.rows)

end ProgressWriter

/-- C2: emitting two records with the same `(sapl_base, materia_id)` key
(the first of them fresh) persists exactly one record — one `_rows` entry,
one CSV line, one JSONL line — and bumps the running count exactly once;
the second call leaves the writer state unchanged. -/
theorem C2_emit_dedup_idempotent (s : PLWriterState) (r1 r2 : PLRow) (k : String)
    (h1 : PLWriter.key r1 = some k) (h2 : PLWriter.key r2 = some k)
    (hfresh : k ∉ s.seen) :
    PLWriter.emit (PLWriter.emit s r1) r2 = PLWriter.emit s r1 ∧
    (PLWriter.emit s r1).rows = s.rows ++ [r1] ∧
    (PLWriter.emit s r1).count = s.count + 1 ∧
    (PLWriter.emit s r1).csv = s.csv ++ [r1] ∧
    (PLWriter.emit s r1).jsonl = s.jsonl.map (fun ls => ls ++ [r1]) := by
  have e1 : PLWriter.emit s r1 =
      { seen := k :: s.seen
        rows := s.rows ++ [r1]
        count := s.count + 1
        csv := s.csv ++ [r1]
        jsonl := s.jsonl.map (fun ls => ls ++ [r1]) } := by
    unfold PLWriter.emit
    rw [h1]
    simp [hfresh]
  have e2 : PLWriter.emit (PLWriter.emit s r1) r2 = PLWriter.emit s r1 := by
    rw [e1]
    unfold PLWriter.emit
    rw [h2]
    simp
  exact ⟨e2, by rw [e1], by rw [e1], by rw [e1], by rw [e1]⟩

/-- Witness for C2 at a concrete writer and pair of records. -/
theorem C2_emit_dedup_idempotent_witness :
    PLWriter.emit (PLWriter.emit (PLWriter.init true) ⟨"https://b.leg.br", some "1", "x"⟩)
        ⟨"https://b.leg.br", some "1", "y"⟩ =
      PLWriter.emit (PLWriter.init true) ⟨"https://b.leg.br", some "1", "x"⟩ ∧
    (PLWriter.emit (PLWriter.init true) ⟨"https://b.leg.br", some "1", "x"⟩).count = 1 := by
  have h := C2_emit_dedup_idempotent (PLWriter.init true)
    ⟨"https://b.leg.br", some "1", "x"⟩ ⟨"https://b.leg.br", some "1", "y"⟩
    "https://b.leg.br|1" (by decide) (by decide) (by decide)
  exact ⟨h.1, h.2.2.1⟩

/-- C10: a record whose `sapl_base` is empty or whose `materia_id` is
`None` has no key, and `emit` returns with no effect at all: no seen-key,
no row, no CSV or JSONL line, no count change. -/
theorem C10_emit_keyless_noop (s : PLWriterState) (row : PLRow)
    (h : row.sapl_base = "" ∨ row.materia_id = none) :
    PLWriter.emit s row = s := by
  have hk : PLWriter.key row = none := by
    rcases h with hb | hm
    · simp [PLWriter.key, hb]
    · unfold PLWriter.key
      rw [hm]
      by_cases hb : row.sapl_base = "" <;> simp [hb]
  unfold PLWriter.emit
  rw [hk]

/-- Witness for C10 on both keyless shapes. -/
theorem C10_emit_keyless_noop_witness :
    PLWriter.emit (PLWriter.init true) ⟨"", some "7", "x"⟩ = PLWriter.init true ∧
    PLWriter.emit (PLWriter.init true) ⟨"https://b.leg.br", none, "x"⟩ = PLWriter.init true :=
  ⟨C10_emit_keyless_noop _ _ (Or.inl rfl), C10_emit_keyless_noop _ _ (Or.inr rfl)⟩

/-- C8 counterexample: `PLWriter.finalize_json` returns the accepted rows
in insertion order — swapping the emit order swaps the aggregate — so the
aggregate view it produces is not sorted. -/
theorem C8_counterexample :
    (PLWriter.finalize_json
        (PLWriter.emit (PLWriter.emit (PLWriter.init true) ⟨"https://b.leg.br", some "1", ""⟩)
          ⟨"https://a.leg.br", some "1", ""⟩)).2 =
      [⟨"https://b.leg.br", some "1", ""⟩, ⟨"https://a.leg.br", some "1", ""⟩] ∧
    (PLWriter.finalize_json
        (PLWriter.emit (PLWriter.emit (PLWriter.init true) ⟨"https://a.leg.br", some "1", ""⟩)
          ⟨"https://b.leg.br", some "1", ""⟩)).2 =
      [⟨"https://a.leg.br", some "1", ""⟩, ⟨"https://b.leg.br", some "1", ""⟩] ∧
    (⟨"https://a.leg.br", some "1", ""⟩ : PLRow) ≠ ⟨"https://b.leg.br", some "1", ""⟩ := by
  refine ⟨by decide, by decide, by decide⟩

/-- C8 (amended): only `ProgressWriter.finalize_json` sorts — it emits a
permutation of the accumulated rows sorted by `(uf, municipio, sapl_url)`
— while `PLWriter.finalize_json` emits the accumulated rows in insertion
order; both aggregates are deduplicated by construction of the accept
operation (pairwise-distinct keys is a writer invariant), and both
finalize operations leave the writer state, hence the append-only CSV and
JSONL logs, unchanged. -/
theorem C8_finalize_behaviour (s : PLWriterState) (ps : ProgressWriterState) (row : PLRow) :
    (PLWriter.finalize_json s).1 = s ∧
    (PLWriter.finalize_json s).2 = s.rows ∧
    (PLWriter.Inv s → PLWriter.Inv (PLWriter.emit s row)) ∧
    (PLWriter.Inv s → ((PLWriter.finalize_json s).2.filterMap PLWriter.key).Nodup) ∧
    (ProgressWriter.finalize_json ps).1 = ps ∧
    List.Sorted ProgressWriter.rowLe (ProgressWriter.finalize_json ps).2 ∧
    (ProgressWriter.finalize_json ps).2.Perm ps.rows := by
  refine ⟨rfl, rfl, PLWriter.emit_Inv row, fun h => h.1, rfl, ?_, ?_⟩
  · exact List.sorted_insertionSort ProgressWriter.rowLe ps.rows
  · exact List.perm_insertionSort ProgressWriter.rowLe ps.rows

/-- Witness for C8 at a concrete writer state. -/
theorem C8_finalize_behaviour_witness :
    PLWriter.Inv (PLWriter.emit (PLWriter.init true) ⟨"https://b.leg.br", some "1", ""⟩) ∧
    ((PLWriter.finalize_json (PLWriter.init true)).2.filterMap PLWriter.key).Nodup := by
  have h := C8_finalize_behaviour (PLWriter.init true) ⟨[], [], 0, [], none⟩
    ⟨"https://b.leg.br", some "1", ""⟩
  refine ⟨h.2.2.1 ?_, h.2.2.2.1 ?_⟩
  · constructor
    · decide
    · intro k hk
      simp [PLWriter.rowKeys, PLWriter.init] at hk
  · constructor
    · decide
    · intro k hk
      simp [PLWriter.rowKeys, PLWriter.init] at hk

/-! ## Pagination engine (`sapl_scrapper/scraper.py`) -/

/-- An item of a page of results (a JSON dict entry, abstracted). -/
abbrev Item := Nat

/-- Request parameters, as an insertion-ordered dict of int values. -/
abbrev Params := List (String × Int)

/-- A request signature `(page_url, tuple(sorted(page_params.items())))`. -/
abbrev Sig := String × List (String × Int)

/-- Python `d[k] = v`: replace in place or append. -/
def setParam : Params → String → Int → Params
  | [], k, v => [(k, v)]
  | (k', v') :: rest, k, v =>
    if k' = k then (k, v) :: rest else (k', v') :: setParam rest k v

/-- Python `d.get(k, default)`. -/
def getParam : Params → String → Int → Int
  | [], _, d => d
  | (k', v') :: rest, k, d => if k' = k then v' else getParam rest k d

/-- Tuple comparison used by Python `sorted` on `dict.items()`. -/
def paramLe (a b : String × Int) : Bool :=
  decide (a.1 < b.1) || (decide (a.1 = b.1) && decide (a.2 ≤ b.2))

/-- Stable insertion used to model Python `sorted`. -/
def insertParam (x : String × Int) : List (String × Int) → List (String × Int)
  | [] => [x]
  | y :: ys => if paramLe x y then x :: y :: ys else y :: insertParam x ys

/-- Python `tuple(sorted(page_params.items()))`. -/
def sortParams (p : Params) : List (String × Int) :=
  p.foldr insertParam []

/-- Model of `urllib.parse.urljoin` for the link shapes exercised here:
an absolute `http(s)` link is returned unchanged; other links resolve
against the current page URL (kept as the base; the relative case is not
exercised by the theorems below). -/
def urljoin (base rel : String) : String :=
  if (str "http").isPrefixOf (str rel) then rel else base

/-- A decoded JSON page as the pagination loops see it. `env` is a dict
with a `results` key: `nextPage` is the `pagination.next_page` value
after `int` conversion (`none` when missing or unconvertible),
`linksNext` the `pagination.links.next` value and `next` the top-level
`next` value (`some ""` models a present-but-falsy string). `bare` is a
bare JSON array, `other` any other JSON value, and `fail` a non-200
status, a transport error, or a body `r.json()` cannot parse. -/
structure Envelope where
  results : List Item
  nextPage : Option Int
  linksNext : Option String
  next : Option String
deriving DecidableEq

inductive Resp
  | fail
  | env (e : Envelope)
  | bare (items : List Item)
  | other
deriving DecidableEq

/-- The remote host: a response for every `(url, params)` request. -/
abbrev Fetch := String → Params → Resp

/-- Python truthiness of an optional string field. -/
def truthyStr : Option String → Option String
  | some l => if l = "" then none else some l
  | none => none

/-- The link-based next-URL resolution of `pager`
(`pagination.links.next` first, then the top-level `next`), resolved
with `urljoin` against the current page URL. -/
def pagerLinkNext (pageUrl : String) (e : Envelope) : Option String :=
  match truthyStr e.linksNext with
  | some l => some (urljoin pageUrl l)
  | none =>
    match truthyStr e.next with
    | some l => some (urljoin pageUrl l)
    | none => none

/-- The next request computed by `pager` from an envelope: a truthy
numeric `pagination.next_page` takes priority (`base_url` with
`base_params` plus `page`); otherwise a next link is followed with
cleared params; `none` ends pagination. -/
def pagerNext (baseUrl : String) (baseParams : Params) (pageUrl : String) (e : Envelope) :
    Option (String × Params) :=
  match e.nextPage with
  | some np =>
    if np = 0 then (pagerLinkNext pageUrl e).map (fun u => (u, ([] : Params)))
    else some (baseUrl, setParam baseParams "page" np)
  | none => (pagerLinkNext pageUrl e).map (fun u => (u, ([] : Params)))

/-- Observable behaviour of a pagination loop: the pages of items
yielded, and the signature of every GET issued, in order. -/
structure PagerTrace where
  pages : List (List Item)
  fetches : List Sig
deriving DecidableEq

/-- `pager` from `sapl_scrapper/scraper.py`, run for at most `fuel`
iterations (each iteration of the source's `while True` performs exactly
one GET). `lastSig` is the loop-guard state (`last_sig`), compared
against each newly computed signature before the next GET. -/
def pagerRun (fetch : Fetch) (baseUrl : String) (baseParams : Params) :
    Nat → String → Params → Option Sig → PagerTrace
  | 0, _, _, _ => ⟨[], []⟩
  | fuel + 1, pageUrl, pageParams, lastSig =>
    let fsig : Sig := (pageUrl, sortParams pageParams)
    match fetch pageUrl pageParams with
    | .fail => ⟨[], [fsig]⟩
    | .other => ⟨[], [fsig]⟩
    | .bare items => ⟨[items], [fsig]⟩
    | .env e =>
      match pagerNext baseUrl baseParams pageUrl e with
      | none => ⟨[e.results], [fsig]⟩
      | some (pu, pp) =>
        let sig : Sig := (pu, sortParams pp)
        if some sig = lastSig then ⟨[e.results], [fsig]⟩
        else
          let t := pagerRun fetch baseUrl baseParams fuel pu pp (some sig)
          ⟨e.results :: t.pages, fsig :: t.fetches⟩

/-- `pager(client, url, params)` as called by the extraction loop. -/
def pager (fetch : Fetch) (fuel : Nat) (url : String) (params : Params) : PagerTrace :=
  pagerRun fetch url params fuel url params none

/-- Python `"?" in s`. -/
def containsQM (s : String) : Bool := (str s).contains '?'

/-- The next request computed by the pagination loop of `list_tipos_pl`:
priority `pagination.links.next`, then the top-level `next`, then a
truthy numeric `pagination.next_page`; after any branch, a chosen URL
containing `?` clears the params; `none` ends the loop. -/
def tiposNext (baseUrl pageUrl : String) (pageParams : Params) (e : Envelope) :
    Option (String × Params) :=
  match truthyStr e.linksNext with
  | some l =>
    let u := urljoin pageUrl l
    some (u, if containsQM u then [] else pageParams)
  | none =>
    match truthyStr e.next with
    | some l =>
      let u := urljoin pageUrl l
      some (u, if containsQM u then [] else pageParams)
    | none =>
      match e.nextPage with
      | some np =>
        if np = 0 then none
        else
          let pp : Params := [("page_size", getParam pageParams "page_size" 500), ("page", np)]
          some (baseUrl, if containsQM baseUrl then [] else pp)
      | none => none

/-- The pagination loop of `list_tipos_pl` (`while page_url:`), run for
at most `fuel` iterations; it has no loop guard, and a bare-array page
ends the loop by setting `page_url = None`. -/
def tiposRun (fetch : Fetch) (baseUrl : String) :
    Nat → Option String → Params → PagerTrace
  | _, none, _ => ⟨[], []⟩
  | 0, some _, _ => ⟨[], []⟩
  | fuel + 1, some pageUrl, pageParams =>
    let fsig : Sig := (pageUrl, sortParams pageParams)
    match fetch pageUrl pageParams with
    | .fail => ⟨[], [fsig]⟩
    | .other => ⟨[], [fsig]⟩
    | .bare items => ⟨[items], [fsig]⟩
    | .env e =>
      match tiposNext baseUrl pageUrl pageParams e with
      | none => ⟨[e.results], [fsig]⟩
      | some (pu, pp) =>
        let t := tiposRun fetch baseUrl fuel (some pu) pp
        ⟨e.results :: t.pages, fsig :: t.fetches⟩

/-- Scenario B server: three pages of two items each, chained by
top-level `next` links, where page 3's `next` link repeats page 2's URL
(the URL at which page 2 was fetched). -/
def fetchB : Fetch := fun u _ =>
  if u = "http://h/api?page=1" then .env ⟨[1, 2], none, none, some "http://h/api?page=2"⟩
  else if u = "http://h/api?page=2" then .env ⟨[3, 4], none, none, some "http://h/api?page=3"⟩
  else if u = "http://h/api?page=3" then .env ⟨[5, 6], none, none, some "http://h/api?page=2"⟩
  else .fail

/-- C3 counterexample: when page 3's next link repeats page 2's URL, the
two signatures alternate and the guard — which only compares with the
immediately preceding signature — never fires: a 4th fetch IS issued and
page 2's items are yielded again (the pager cycles for as long as it is
allowed to run). -/
theorem C3_counterexample :
    (pager fetchB 4 "http://h/api?page=1" []).fetches.length = 4 ∧
    (pager fetchB 4 "http://h/api?page=1" []).pages = [[1, 2], [3, 4], [5, 6], [3, 4]] := by
  refine ⟨by decide, by decide⟩

/-- Scenario B as amended: page 3's `next` link instead repeats the link
by which page 3 itself was reached (page 2's next-link value). -/
def fetchB2 : Fetch := fun u _ =>
  if u = "http://h/api?page=1" then .env ⟨[1, 2], none, none, some "http://h/api?page=2"⟩
  else if u = "http://h/api?page=2" then .env ⟨[3, 4], none, none, some "http://h/api?page=3"⟩
  else if u = "http://h/api?page=3" then .env ⟨[5, 6], none, none, some "http://h/api?page=3"⟩
  else .fail

/-- C3 (amended): with 3 pages of 2 items each via next-link pagination
where page 3's next link repeats the URL by which page 3 itself was
fetched, the pager yields exactly the 6 distinct items over exactly 3
fetches — the loop guard stops pagination before a 4th fetch. -/
theorem C3_amended_loop_guard :
    (pager fetchB2 10 "http://h/api?page=1" []).pages = [[1, 2], [3, 4], [5, 6]] ∧
    (pager fetchB2 10 "http://h/api?page=1" []).fetches.length = 3 ∧
    (pager fetchB2 10 "http://h/api?page=1" []).pages.flatten = [1, 2, 3, 4, 5, 6] ∧
    (pager fetchB2 10 "http://h/api?page=1" []).pages.flatten.Nodup := by
  refine ⟨by decide, by decide, by decide, by decide⟩

theorem pagerRun_guarded_le_one (fetch : Fetch) (baseUrl : String) (baseParams : Params)
    (fuel : Nat) (u : String) (p : Params)
    (H : ∀ u' p' e pu pp, fetch u' p' = .env e →
      pagerNext baseUrl baseParams u' e = some (pu, pp) →
      (pu, sortParams pp) = (u', sortParams p')) :
    (pagerRun fetch baseUrl baseParams fuel u p (some (u, sortParams p))).fetches.length ≤ 1 ∧
    (pagerRun fetch baseUrl baseParams fuel u p (some (u, sortParams p))).pages.length ≤ 1 := by
  cases fuel with
  | zero => simp [pagerRun]
  | succ n =>
    cases hf : fetch u p with
    | fail => simp [pagerRun, hf]
    | other => simp [pagerRun, hf]
    | bare items => simp [pagerRun, hf]
    | env e =>
      cases hn : pagerNext baseUrl baseParams u e with
      | none => simp [pagerRun, hf, hn]
      | some pr =>
        obtain ⟨pu, pp⟩ := pr
        have hsig := H u p e pu pp hf hn
        simp [pagerRun, hf, hn, hsig]

/-- C4: for a server on which every envelope's computed next request has
the same signature as the request that produced it — so each newly
computed signature equals the previously computed one — the pager stops
after at most 2 fetches and yields at most 2 pages of items, for any
fuel: the loop guard refuses to issue a fetch for a computed signature
equal to the immediately preceding computed signature. -/
theorem C4_loop_guard_two_pages (fetch : Fetch) (baseUrl : String) (baseParams : Params)
    (fuel : Nat) (u0 : String) (p0 : Params)
    (H : ∀ u p e pu pp, fetch u p = .env e →
      pagerNext baseUrl baseParams u e = some (pu, pp) →
      (pu, sortParams pp) = (u, sortParams p)) :
    (pagerRun fetch baseUrl baseParams fuel u0 p0 none).fetches.length ≤ 2 ∧
    (pagerRun fetch baseUrl baseParams fuel u0 p0 none).pages.length ≤ 2 := by
  cases fuel with
  | zero => simp [pagerRun]
  | succ n =>
    cases hf : fetch u0 p0 with
    | fail => simp [pagerRun, hf]
    | other => simp [pagerRun, hf]
    | bare items => simp [pagerRun, hf]
    | env e =>
      cases hn : pagerNext baseUrl baseParams u0 e with
      | none => simp [pagerRun, hf, hn]
      | some pr =>
        obtain ⟨pu, pp⟩ := pr
        have hin := pagerRun_guarded_le_one fetch baseUrl baseParams n pu pp H
        simp only [pagerRun, hf, hn]
        simp only [Option.some.injEq, reduceCtorEq, if_false]
        constructor
        · simpa using Nat.succ_le_succ hin.1
        · simpa using Nat.succ_le_succ hin.2

/-- Self-looping server used to witness C4: the single page points its
next link at itself, so the computed signature always repeats. -/
def fetchC4 : Fetch := fun u p =>
  if u = "http://x" ∧ p = [] then .env ⟨[7], none, some "http://x", none⟩ else .fail

theorem C4_loop_guard_two_pages_witness :
    (pagerRun fetchC4 "http://x" [] 10 "http://x" [] none).fetches.length ≤ 2 ∧
    (pagerRun fetchC4 "http://x" [] 10 "http://x" [] none).pages.length ≤ 2 := by
  apply C4_loop_guard_two_pages
  intro u p e pu pp hf hn
  simp only [fetchC4] at hf
  split at hf
  case isTrue h =>
    obtain ⟨hu, hp⟩ := h
    subst hu
    subst hp
    injection hf with he
    subst he
    have hcomp : pagerNext "http://x" [] "http://x" ⟨[7], none, some "http://x", none⟩ =
        some ("http://x", []) := by decide
    rw [hcomp] at hn
    injection hn with h2
    injection h2 with hpu hpp
    subst hpu
    subst hpp
    rfl
  case isFalse h => exact Resp.noConfusion hf

/-- Server separating the two pagination loops: the first page carries
both a truthy numeric `pagination.next_page` and a top-level `next`
link pointing elsewhere. -/
def fetchC7 : Fetch := fun u p =>
  if u = "http://h/t" ∧ p = [("page_size", 500)] then
    .env ⟨[1], some 2, none, some "http://b"⟩
  else if u = "http://h/t" ∧ p = [("page_size", 500), ("page", 2)] then .bare [2]
  else if u = "http://b" then .bare [3]
  else .fail

/-- C7 counterexample: on a page offering both a numeric continuation and
a top-level next link, `pager` follows the numeric continuation while the
taxonomy loop of `list_tipos_pl` follows the link — the two traverse
different page sequences and collect different items, so the taxonomy
fetcher does not reuse the pager's next-page resolution. -/
theorem C7_counterexample :
    (pager fetchC7 5 "http://h/t" [("page_size", 500)]).pages = [[1], [2]] ∧
    (tiposRun fetchC7 "http://h/t" 5 (some "http://h/t") [("page_size", 500)]).pages =
      [[1], [3]] ∧
    (pager fetchC7 5 "http://h/t" [("page_size", 500)]).fetches ≠
      (tiposRun fetchC7 "http://h/t" 5 (some "http://h/t") [("page_size", 500)]).fetches := by
  refine ⟨by decide, by decide, by decide⟩

/-- Servers whose envelopes advance only through a truthy top-level
`next` link that is absolute and carries a query string. -/
def LinkOnlyServer (fetch : Fetch) : Prop :=
  ∀ u p e, fetch u p = .env e →
    e.nextPage = none ∧ e.linksNext = none ∧
    ∀ l, truthyStr e.next = some l →
      (str "http").isPrefixOf (str l) = true ∧ containsQM l = true

/-- Servers whose next links never re-target the URL they came from. -/
def NoSelfLink (fetch : Fetch) : Prop :=
  ∀ u p e l, fetch u p = .env e → truthyStr e.next = some l → urljoin u l ≠ u

theorem truthyStr_none : truthyStr none = none := rfl

theorem pager_tipos_agree_aux (fetch : Fetch) (baseUrl : String) (baseParams : Params)
    (h1 : LinkOnlyServer fetch) (h2 : NoSelfLink fetch) :
    ∀ (fuel : Nat) (u : String) (p : Params) (lastSig : Option Sig),
      (lastSig = none ∨ lastSig = some (u, sortParams p)) →
      pagerRun fetch baseUrl baseParams fuel u p lastSig =
        tiposRun fetch baseUrl fuel (some u) p := by
  intro fuel
  induction fuel with
  | zero =>
    intro u p lastSig _
    simp [pagerRun, tiposRun]
  | succ n ih =>
    intro u p lastSig hls
    cases hf : fetch u p with
    | fail => simp [pagerRun, tiposRun, hf]
    | other => simp [pagerRun, tiposRun, hf]
    | bare items => simp [pagerRun, tiposRun, hf]
    | env e =>
      obtain ⟨hnp, hln, hnext⟩ := h1 u p e hf
      cases htr : truthyStr e.next with
      | none =>
        have hpn : pagerNext baseUrl baseParams u e = none := by
          simp [pagerNext, hnp, pagerLinkNext, hln, truthyStr_none, htr]
        have htn : tiposNext baseUrl u p e = none := by
          simp [tiposNext, hln, truthyStr_none, htr, hnp]
        simp [pagerRun, tiposRun, hf, hpn, htn]
      | some l =>
        obtain ⟨habs, hqm⟩ := hnext l htr
        have hurl : urljoin u l = l := by simp [urljoin, habs]
        have hne : l ≠ u := by
          have := h2 u p e l hf htr
          rwa [hurl] at this
        have hpn : pagerNext baseUrl baseParams u e = some (l, ([] : Params)) := by
          simp [pagerNext, hnp, pagerLinkNext, hln, truthyStr_none, htr, hurl]
        have htn : tiposNext baseUrl u p e = some (l, ([] : Params)) := by
          simp [tiposNext, hln, truthyStr_none, htr, hurl, hqm]
        have hguard : ¬ (some ((l, sortParams ([] : Params)) : Sig) = lastSig) := by
          rcases hls with rfl | rfl
          · simp
          · intro hc
            injection hc with hc2
            injection hc2 with hcu hcp
            exact hne hcu
        have hrec := ih l [] (some (l, sortParams ([] : Params))) (Or.inr rfl)
        simp only [pagerRun, tiposRun, hf, hpn, htn, hguard, if_false]
        rw [hrec]

/-- C7 (amended): the taxonomy fetcher of `list_tipos_pl` implements its
own pagination loop rather than reusing `pager` — their convention
priorities differ and only `pager` carries the loop guard (see the
counterexample) — but on servers that advance only through an absolute
top-level `next` link carrying a query string and never re-targeting the
current URL, the two loops traverse identical page sequences and issue
identical fetches. -/
theorem C7_link_pagination_agree (fetch : Fetch) (baseUrl : String) (baseParams : Params)
    (fuel : Nat) (u0 : String) (p0 : Params)
    (h1 : LinkOnlyServer fetch) (h2 : NoSelfLink fetch) :
    pagerRun fetch baseUrl baseParams fuel u0 p0 none =
      tiposRun fetch baseUrl fuel (some u0) p0 :=
  pager_tipos_agree_aux fetch baseUrl baseParams h1 h2 fuel u0 p0 none (Or.inl rfl)

/-- Link-only server used to witness C7. -/
def fetchC7W : Fetch := fun u _ =>
  if u = "http://s?a" then .env ⟨[1], none, none, some "http://s?b"⟩
  else if u = "http://s?b" then .bare [2]
  else .fail

theorem C7_link_pagination_agree_witness :
    pagerRun fetchC7W "http://s?a" [] 5 "http://s?a" [] none =
      tiposRun fetchC7W "http://s?a" 5 (some "http://s?a") [] := by
  apply C7_link_pagination_agree
  · intro u p e hf
    simp only [fetchC7W] at hf
    split at hf
    case isTrue h =>
      injection hf with he
      subst he
      refine ⟨rfl, rfl, ?_⟩
      intro l hl
      simp [truthyStr] at hl
      subst hl
      exact ⟨by decide, by decide⟩
    case isFalse h =>
      split at hf
      case isTrue h' => exact Resp.noConfusion hf
      case isFalse h' => exact Resp.noConfusion hf
  · intro u p e l hf hl
    simp only [fetchC7W] at hf
    split at hf
    case isTrue h =>
      subst h
      injection hf with he
      subst he
      simp [truthyStr] at hl
      subst hl
      decide
    case isFalse h =>
      split at hf
      case isTrue h' => exact Resp.noConfusion hf
      case isFalse h' => exact Resp.noConfusion hf

/-! ## Certificate-search retry loop
(`query_crtsh` inside `discover_by_crtsh`, `tools/sapl_finder/scraper.py`) -/

/-- A crt.sh result row (abstracted). -/
abbrev CrtRow := Nat

/-- The combined outcome of one iteration body of `query_crtsh`'s retry
loop: `ok rows` when `fetch_json`, the NDJSON re-parse or the regex
fallback produced rows; `fail status` when nothing parsed, carrying the
status `try_get` returned (0 models a transport error). -/
inductive Attempt
  | ok (rows : List CrtRow)
  | fail (status : Int)
deriving DecidableEq

def Attempt.isErr : Attempt → Bool
  | .ok _ => false
  | .fail _ => true

/-- Observable behaviour of `query_crtsh` for one pattern: the rows
returned, the `asyncio.sleep` delays in order, and the number of loop
iterations (attempts) executed. -/
structure CrtTrace where
  result : List CrtRow
  sleeps : List ℚ
  attempts : Nat
deriving DecidableEq

/-- The retry loop `for attempt in range(5)` of `query_crtsh`: a
successful attempt returns its rows at once; a failed attempt with
status 429/503, or any failed attempt before the last, sleeps `backoff`
seconds and continues with `backoff = min(backoff * 2, 20)`; otherwise
the loop breaks. An exhausted range returns an empty result. -/
def queryCrtshGo (oracle : Nat → Attempt) :
    Nat → Nat → ℚ → List ℚ → Nat → CrtTrace
  | _, 0, _, sleeps, made => ⟨[], sleeps, made⟩
  | attempt, remaining + 1, backoff, sleeps, made =>
    match oracle attempt with
    | .ok rows => ⟨rows, sleeps, made + 1⟩
    | .fail status =>
      if status = 429 ∨ status = 503 ∨ attempt < 4 then
        queryCrtshGo oracle (attempt + 1) remaining (min (backoff * 2) 20)
          (sleeps ++ [backoff]) (made + 1)
      else ⟨[], sleeps, made + 1⟩

/-- `query_crtsh(pattern)`: up to 5 attempts, initial backoff 1.5 s. -/
def query_crtsh (oracle : Nat → Attempt) : CrtTrace :=
  queryCrtshGo oracle 0 5 (3 / 2) [] 0

/-- The backoff value held at the start of attempt `n`. -/
def sched : Nat → ℚ
  | 0 => 3 / 2
  | n + 1 => min (sched n * 2) 20

theorem queryCrtshGo_spec (oracle : Nat → Attempt) :
    ∀ (remaining attempt : Nat), attempt + remaining = 5 →
      ∃ k, attempt ≤ k ∧ k ≤ 5 ∧
        (queryCrtshGo oracle attempt remaining (sched attempt)
            ((List.range attempt).map sched) attempt).sleeps = (List.range k).map sched ∧
        (queryCrtshGo oracle attempt remaining (sched attempt)
            ((List.range attempt).map sched) attempt).attempts ≤ 5 ∧
        ((∀ i, i < 5 → (oracle i).isErr = true) →
          (queryCrtshGo oracle attempt remaining (sched attempt)
              ((List.range attempt).map sched) attempt).result = []) := by
  intro remaining
  induction remaining with
  | zero =>
    intro attempt hsum
    refine ⟨attempt, le_refl _, by omega, rfl, ?_, fun _ => rfl⟩
    simp only [queryCrtshGo]
    omega
  | succ rem ih =>
    intro attempt hsum
    cases hor : oracle attempt with
    | ok rows =>
      refine ⟨attempt, le_refl _, by omega, ?_, ?_, ?_⟩
      · simp [queryCrtshGo, hor]
      · simp only [queryCrtshGo, hor]
        omega
      · intro hall
        have hcontra := hall attempt (by omega)
        rw [hor] at hcontra
        simp [Attempt.isErr] at hcontra
    | fail status =>
      by_cases hcond : status = 429 ∨ status = 503 ∨ attempt < 4
      · have hrw : queryCrtshGo oracle attempt (rem + 1) (sched attempt)
            ((List.range attempt).map sched) attempt =
            queryCrtshGo oracle (attempt + 1) rem (sched (attempt + 1))
              ((List.range (attempt + 1)).map sched) (attempt + 1) := by
          simp only [queryCrtshGo, hor]
          rw [if_pos hcond]
          have hsched : min (sched attempt * 2) 20 = sched (attempt + 1) := rfl
          have hrange : (List.range attempt).map sched ++ [sched attempt] =
              (List.range (attempt + 1)).map sched := by
            rw [List.range_succ, List.map_append]
            rfl
          rw [hsched, hrange]
        obtain ⟨k, hk1, hk5, h1, h2, h3⟩ := ih (attempt + 1) (by omega)
        rw [hrw]
        exact ⟨k, by omega, hk5, h1, h2, h3⟩
      · refine ⟨attempt, le_refl _, by omega, ?_, ?_, ?_⟩
        · simp only [queryCrtshGo, hor]
          rw [if_neg hcond]
        · simp only [queryCrtshGo, hor]
          rw [if_neg hcond]
          show attempt + 1 ≤ 5
          omega
        · intro _
          simp only [queryCrtshGo, hor]
          rw [if_neg hcond]

theorem sched1 : sched 1 = 3 := by
  show min ((3:ℚ)/2 * 2) 20 = 3
  rw [show (3:ℚ)/2 * 2 = 3 by norm_num]
  exact min_eq_left (by norm_num)

theorem sched2 : sched 2 = 6 := by
  show min (sched 1 * 2) 20 = 6
  rw [sched1, show (3:ℚ) * 2 = 6 by norm_num]
  exact min_eq_left (by norm_num)

theorem sched3 : sched 3 = 12 := by
  show min (sched 2 * 2) 20 = 12
  rw [sched2, show (6:ℚ) * 2 = 12 by norm_num]
  exact min_eq_left (by norm_num)

theorem sched4 : sched 4 = 20 := by
  show min (sched 3 * 2) 20 = 20
  rw [sched3, show (12:ℚ) * 2 = 24 by norm_num]
  exact min_eq_right (by norm_num)

theorem schedFull : (List.range 5).map sched = [3/2, 3, 6, 12, 20] := by
  rw [show List.range 5 = [0, 1, 2, 3, 4] from rfl]
  simp only [List.map]
  rw [sched1, sched2, sched3, sched4]
  rfl

/-- C5: for every oracle of attempt outcomes, the `query_crtsh` retry
loop performs at most 5 attempts; its sleep delays form a prefix of the
schedule `1.5, 3, 6, 12, 20` seconds (each delay double the previous,
capped at 20), so they are non-decreasing and never exceed 20 s; and
when every attempt fails the partition yields an empty result instead of
an error. -/
theorem C5_crtsh_retry_backoff (oracle : Nat → Attempt) :
    (query_crtsh oracle).sleeps <+: [3/2, 3, 6, 12, 20] ∧
    (query_crtsh oracle).sleeps.Chain' (· ≤ ·) ∧
    (∀ d ∈ (query_crtsh oracle).sleeps, d ≤ (20 : ℚ)) ∧
    (query_crtsh oracle).attempts ≤ 5 ∧
    ((∀ i, i < 5 → (oracle i).isErr = true) → (query_crtsh oracle).result = []) := by
  obtain ⟨k, hk0, hk5, hsl, hat, hres⟩ := queryCrtshGo_spec oracle 5 0 rfl
  have hq : query_crtsh oracle =
      queryCrtshGo oracle 0 5 (sched 0) ((List.range 0).map sched) 0 := rfl
  have htake : (List.range k).map sched = ((List.range 5).map sched).take k := by
    rw [← List.map_take, List.take_range, Nat.min_eq_left hk5]
  have hpre : (List.range k).map sched <+: ([3/2, 3, 6, 12, 20] : List ℚ) := by
    rw [← schedFull, htake]
    exact ⟨((List.range 5).map sched).drop k, List.take_append_drop _ _⟩
  have hchainfull : ([3/2, 3, 6, 12, 20] : List ℚ).Chain' (· ≤ ·) := by
    simp only [List.chain'_cons, List.chain'_singleton, and_true]
    norm_num
  refine ⟨?_, ?_, ?_, ?_, ?_⟩
  · rw [hq, hsl]
    exact hpre
  · rw [hq, hsl]
    exact hchainfull.sublist hpre.sublist
  · rw [hq, hsl]
    intro d hd
    have hmem := hpre.sublist.subset hd
    simp only [List.mem_cons, List.not_mem_nil, or_false] at hmem
    rcases hmem with rfl | rfl | rfl | rfl | rfl <;> norm_num
  · rw [hq]
    exact hat
  · rw [hq]
    exact hres

/-- Witness for C5: the always-rate-limited oracle performs 5 attempts
and yields an empty result. -/
theorem C5_crtsh_retry_backoff_witness :
    (query_crtsh (fun _ => Attempt.fail 503)).attempts ≤ 5 ∧
    (query_crtsh (fun _ => Attempt.fail 503)).result = [] := by
  have h := C5_crtsh_retry_backoff (fun _ => Attempt.fail 503)
  exact ⟨h.2.2.2.1, h.2.2.2.2 (fun i _ => rfl)⟩

/-! ## Extraction runner (`run_scrape` in `sapl_scrapper/runner.py`) -/

/-- A line of the validated-host input stream as `run_scrape` reads it:
blank after `strip()`, malformed (`json.loads` raises), or a decoded
host item (abstracted to its content). -/
inductive InLine
  | blank
  | malformed
  | ok (item : String)
deriving DecidableEq

/-- Outcome of `run_scrape` up to task creation: whether the output
files were created (the writer is constructed right after the input
check, before any request) and the scrape tasks, one per decodable
input line, in order. -/
structure RunOutcome where
  outputsCreated : Bool
  tasks : List String
deriving DecidableEq

/-- `run_scrape` from `sapl_scrapper/runner.py`: its first statement
raises `FileNotFoundError` when the input file is missing — before the
writer (and its output files) is created and before any network request
— and otherwise creates the writer and then one task per input line
that survives the blank check and `json.loads`, skipping blank and
malformed lines with `continue`. -/
def run_scrape (inputFile : Option (List InLine)) : Except String RunOutcome :=
  match inputFile with
  | none => .error "Arquivo de entrada não encontrado"
  | some lines =>
    .ok ⟨true, lines.filterMap (fun l =>
      match l with
      | .ok item => some item
      | _ => none)⟩

/-- C9: a missing input file is the only fatal condition — `run_scrape`
errors out before any output file is created or request issued, while
any existing input always yields a completed run with the outputs
created; a malformed (or blank) line is skipped individually: removing
it from the stream leaves the run outcome unchanged, and the lines
around it are still processed. -/
theorem C9_missing_input_fatal (pre post : List InLine) :
    (∃ msg, run_scrape none = Except.error msg) ∧
    (∀ lines : List InLine, ∃ out,
      run_scrape (some lines) = Except.ok out ∧ out.outputsCreated = true) ∧
    run_scrape (some (pre ++ [InLine.malformed] ++ post)) = run_scrape (some (pre ++ post)) ∧
    run_scrape (some (pre ++ [InLine.blank] ++ post)) = run_scrape (some (pre ++ post)) := by
  refine ⟨⟨_, rfl⟩, fun lines => ⟨_, rfl, rfl⟩, ?_, ?_⟩ <;>
    simp [run_scrape, List.filterMap_append]

/-- Probe used to witness C1: only the second candidate path answers. -/
def probeW : Probe := fun url =>
  if url = "https://cam.leg.br/sapl/materia/pesquisar-materia" then
    (200, str "<html><body>SAPL - Interlegis</body></html>")
  else (0, [])

theorem C1_validate_host_iff_witness :
    (validate_host probeW "cam.leg.br").isSome = true :=
  (C1_validate_host_iff probeW "cam.leg.br").1.mpr
    ⟨"https://cam.leg.br/sapl/materia/pesquisar-materia", by decide, by decide,
      Or.inl ⟨str "SAPL - Interlegis", by decide, by decide⟩⟩

theorem C9_missing_input_fatal_witness :
    run_scrape (some ([InLine.ok "h1"] ++ [InLine.malformed] ++ [InLine.ok "h2"])) =
      run_scrape (some ([InLine.ok "h1"] ++ [InLine.ok "h2"])) :=
  (C9_missing_input_fatal [InLine.ok "h1"] [InLine.ok "h2"]).2.2.1
